import Mathlib

/-!
# Verification development for the actor framework core

Two components are embedded:

* `caf.param` (libcaf_core/caf/param.hpp): the copy-on-write message
  parameter, modelled over an explicit heap of objects;
* `cppa.detail` (src/singleton_manager.cpp): the seven process-wide atomic
  singleton slots with their getters, `set_scheduler` and `shutdown`,
  modelled as state passing over a `Registry` that also records the trace
  of effects (construct, start, stop, destroy, ...).
-/

namespace caf

/-! ## Heap of `T` objects -/

/-- A pointer: `none` is `nullptr`, `some a` is the address of an object. -/
abbrev Ptr := Option Nat

/-- Free store holding the objects of type `T`.  An address is an index into
`cells`; `none` marks a cell whose object has been deleted.  `freed` records
every address passed to `delete`, in order. -/
structure Heap (T : Type) where
  cells : List (Option T)
  freed : List Nat

namespace Heap

variable {T : Type}

/-- Read the object stored at address `a`; `none` when no live object is there. -/
def read (m : Heap T) (a : Nat) : Option T :=
  (m.cells.get? a).join

/-- Dereference a pointer: `none` for `nullptr` and for dangling pointers. -/
def deref (m : Heap T) (p : Ptr) : Option T :=
  match p with
  | none => none
  | some a => m.read a

/-- The expression `new T(v)`: a fresh cell initialised with a copy of `v`;
returns the new address together with the heap. -/
def alloc (m : Heap T) (v : T) : Nat × Heap T :=
  (m.cells.length, { m with cells := m.cells ++ [some v] })

/-- Assignment through a reference to the object at address `a`. -/
def write (m : Heap T) (a : Nat) (v : T) : Heap T :=
  { m with cells := m.cells.set a (some v) }

/-- The statement `delete p`: nothing happens for `nullptr`, otherwise the object is
destroyed and the address is recorded as freed. -/
def delete (m : Heap T) (p : Ptr) : Heap T :=
  match p with
  | none => m
  | some a => { cells := m.cells.set a none, freed := m.freed ++ [a] }

end Heap

/-! ## `param<T>` -/

/-- The access mode `param::flag`. -/
inductive flag where
  | shared_access
  | exclusive_access
  | private_access
  deriving DecidableEq, Repr

/-- The data members of `param<T>`: the pointer `x_` and the mode `flag_`. -/
structure param where
  x_ : Ptr
  flag_ : flag
  deriving DecidableEq, Repr

namespace param

variable {T : Type}

/-- Constructor `param(const void* ptr, bool is_shared)`. -/
def mk_param (ptr : Ptr) (is_shared : Bool) : param :=
  { x_ := ptr, flag_ := if is_shared then flag.shared_access else flag.exclusive_access }

/-- Move constructor `param(param&& other)`: returns the new wrapper and the state
in which `other` is left behind. -/
def move_ctor (other : param) : param × param :=
  ({ x_ := other.x_, flag_ := other.flag_ }, { other with x_ := none })

/-- Destructor `~param()`. -/
def dtor (p : param) (m : Heap T) : Heap T :=
  if p.flag_ = flag.private_access then m.delete p.x_ else m

/-- Member `get() const`, which is `*x_`: the object referred to; `none` when the
dereference is undefined (null or dangling pointer).  The member is `const`
and takes no heap action, hence no state is returned. -/
def get (p : param) (m : Heap T) : Option T :=
  m.deref p.x_

/-- Member `get_mutable()`: returns the address of the object the returned reference
is bound to, the wrapper and the heap afterwards; `none` when a dereference
is undefined. -/
def get_mutable (p : param) (m : Heap T) : Option (Nat × param × Heap T) :=
  if p.flag_ = flag.shared_access then
    match get p m with
    | none => none
    | some v =>
      let (cpy, m1) := m.alloc v
      some (cpy, { x_ := some cpy, flag_ := flag.private_access }, m1)
  else
    match p.x_ with
    | none => none
    | some a =>
      match m.read a with
      | none => none
      | some _ => some (a, p, m)

/-- Member `move()`, which is `std::move(get_mutable())`. -/
def move (p : param) (m : Heap T) : Option (Nat × param × Heap T) :=
  get_mutable p m

end param

/-! ## The wrappers of one message element -/

/-- All wrappers that descend from one constructor call: `head` currently holds the
value, `husks` are the sources of the move constructions performed so far
(most recent first), `heap` is the free store. -/
structure Chain (T : Type) where
  head : param
  husks : List param
  heap : Heap T

/-- What a handler can do with the wrapper that holds the value. -/
inductive Action (T : Type) where
  /-- Call `get_mutable()` and drop the reference. -/
  | get_mutable
  /-- Call `move()` and drop the reference. -/
  | move
  /-- Call `get_mutable()` and assign `v` through the returned reference. -/
  | assign (v : T)
  /-- Move-construct a new wrapper from the current one. -/
  | move_construct

namespace Chain

variable {T : Type}

/-- The chain right after `param(ptr, is_shared)`. -/
def start (ptr : Ptr) (is_shared : Bool) (m : Heap T) : Chain T :=
  { head := param.mk_param ptr is_shared, husks := [], heap := m }

/-- One action on the head wrapper; `none` when it runs into an undefined dereference. -/
def step (c : Chain T) : Action T → Option (Chain T)
  | Action.get_mutable =>
    match param.get_mutable c.head c.heap with
    | none => none
    | some (_, p, m) => some { c with head := p, heap := m }
  | Action.move =>
    match param.move c.head c.heap with
    | none => none
    | some (_, p, m) => some { c with head := p, heap := m }
  | Action.assign v =>
    match param.get_mutable c.head c.heap with
    | none => none
    | some (a, p, m) => some { c with head := p, heap := m.write a v }
  | Action.move_construct =>
    some { c with head := (param.move_ctor c.head).1,
                  husks := (param.move_ctor c.head).2 :: c.husks }

/-- A sequence of actions, left to right. -/
def run (c : Chain T) : List (Action T) → Option (Chain T)
  | [] => some c
  | a :: as =>
    match c.step a with
    | none => none
    | some c1 => run c1 as

/-- Every wrapper of the chain. -/
def wrappers (c : Chain T) : List param :=
  c.head :: c.husks

end Chain

/-- Shape of every chain that starts from a wrapper constructed over the live address
`ptr` of the heap `m0`: moved-from wrappers hold `nullptr`, nothing has been
freed yet, the object at `ptr` is alive, and the head either still points
at `ptr` with no copy made, or is private and owns the single copy, which
sits in the first cell allocated after `m0`. -/
def Chain.Inv {T : Type} (m0 : Heap T) (ptr : Nat) (c : Chain T) : Prop :=
  (∀ q ∈ c.husks, q.x_ = none) ∧ c.heap.freed = m0.freed ∧
  (c.heap.read ptr).isSome ∧
  ((c.head.flag_ ≠ flag.private_access ∧ c.head.x_ = some ptr ∧
      c.heap.cells.length = m0.cells.length) ∨
   (c.head.flag_ = flag.private_access ∧ c.head.x_ = some m0.cells.length ∧
      c.heap.cells.length = m0.cells.length + 1 ∧
      (c.heap.read m0.cells.length).isSome))

/-- A heap with one message value, the number 5 at address 0. -/
def Heap.sample : Heap Nat :=
  { cells := [some 5], freed := [] }

/-- Run the destructor of every wrapper in the list, in list order. -/
def dtor_all {T : Type} (ws : List param) (m : Heap T) : Heap T :=
  ws.foldl (fun h p => param.dtor p h) m

end caf

namespace cppa

/-! ## The singleton slots -/

/-- The seven singleton types, one per global atomic pointer. -/
inductive Kind where
  | uniform_type_info_map
  | decorated_names_map
  | network_manager
  | actor_registry
  | group_manager
  | empty_tuple
  | scheduler
  deriving DecidableEq, Repr

/-- Observable effects, in the order in which they happen.  Objects are named by
instance ids. -/
inductive Event where
  /-- An object of kind `k` was constructed (`new T`, `create_singleton`). -/
  | construct (k : Kind) (p : Nat)
  /-- The statement `delete p`. -/
  | destroy (k : Kind) (p : Nat)
  /-- The call `p->start()`. -/
  | start (k : Kind) (p : Nat)
  /-- The call `p->stop()`. -/
  | stop (k : Kind) (p : Nat)
  /-- The call `p->ref()`. -/
  | ref (p : Nat)
  /-- The call `p->deref()`. -/
  | deref (p : Nat)
  /-- The call `self.unchecked()->quit(exit_reason::normal)`. -/
  | quit (a : Nat)
  /-- The call `p->await_running_count_equal(n)`. -/
  | await_running_count_equal (p : Nat) (n : Nat)
  /-- The call `std::atomic_thread_fence(std::memory_order_seq_cst)`. -/
  | fence
  deriving DecidableEq, Repr

/-- Process state: the seven atomics (`none` is `nullptr`), the id the next
constructed object receives, the reference count `rc` of the object
`s_empty_tuple` points to, and the trace of effects so far. -/
structure Registry where
  s_uniform_type_info_map : Option Nat
  s_decorated_names_map : Option Nat
  s_network_manager : Option Nat
  s_actor_registry : Option Nat
  s_group_manager : Option Nat
  s_empty_tuple : Option Nat
  s_scheduler : Option Nat
  next : Nat
  rc : Nat
  trace : List Event
  deriving DecidableEq, Repr

namespace Registry

/-- The state at process start: every slot null, nothing constructed. -/
def empty : Registry :=
  { s_uniform_type_info_map := none, s_decorated_names_map := none,
    s_network_manager := none, s_actor_registry := none, s_group_manager := none,
    s_empty_tuple := none, s_scheduler := none, next := 0, rc := 0, trace := [] }

/-- Atomic load of the slot for kind `k`. -/
def load (r : Registry) : Kind → Option Nat
  | Kind.uniform_type_info_map => r.s_uniform_type_info_map
  | Kind.decorated_names_map => r.s_decorated_names_map
  | Kind.network_manager => r.s_network_manager
  | Kind.actor_registry => r.s_actor_registry
  | Kind.group_manager => r.s_group_manager
  | Kind.empty_tuple => r.s_empty_tuple
  | Kind.scheduler => r.s_scheduler

/-- Atomic store into the slot for kind `k`. -/
def store (r : Registry) (k : Kind) (v : Option Nat) : Registry :=
  match k with
  | Kind.uniform_type_info_map => { r with s_uniform_type_info_map := v }
  | Kind.decorated_names_map => { r with s_decorated_names_map := v }
  | Kind.network_manager => { r with s_network_manager := v }
  | Kind.actor_registry => { r with s_actor_registry := v }
  | Kind.group_manager => { r with s_group_manager := v }
  | Kind.empty_tuple => { r with s_empty_tuple := v }
  | Kind.scheduler => { r with s_scheduler := v }

/-- Append an effect to the trace. -/
def emit (r : Registry) (e : Event) : Registry :=
  { r with trace := r.trace ++ [e] }

/-- The expression `new T` for kind `k`: a fresh instance id. -/
def new_object (r : Registry) (k : Kind) : Nat × Registry :=
  (r.next, { r with next := r.next + 1, trace := r.trace ++ [Event.construct k r.next] })

/-- The statement `delete p`: nothing happens for `nullptr`. -/
def delete (r : Registry) (k : Kind) (p : Option Nat) : Registry :=
  match p with
  | none => r
  | some a => r.emit (Event.destroy k a)

end Registry

/-! ## Atomic primitives -/

/-- The operation `compare_exchange_strong(expected, desired)` on a cell holding
`cell`: returns success, the cell afterwards and `expected` afterwards. -/
def compare_exchange_strong (cell expected desired : Option Nat) :
    Bool × Option Nat × Option Nat :=
  if cell = expected then (true, desired, expected) else (false, cell, cell)

/-- The operation `compare_exchange_weak(expected, desired)`: as the strong form,
except that it is allowed to fail although the cell holds `expected`;
`spurious` says whether this attempt does so. -/
def compare_exchange_weak (spurious : Bool) (cell expected desired : Option Nat) :
    Bool × Option Nat × Option Nat :=
  if spurious then (false, cell, cell) else compare_exchange_strong cell expected desired

/-- Modelled from the spec: `ref_counted::ref` (its definition is not part of the
sources at hand) adds one referent to the count. -/
def ref (rc : Nat) : Nat :=
  rc + 1

/-- Modelled from the spec: `ref_counted::deref` (its definition is not part of the
sources at hand) removes one referent and reports whether another referent
remains. -/
def deref (rc : Nat) : Nat × Bool :=
  (rc - 1, decide (0 < rc - 1))

/-! ## singleton_manager.cpp -/

/-- The template `stop_and_kill(ptr)`.  The list gives the outcome of the successive
weak compare-and-swap attempts (`true` is a spurious failure), one entry per
iteration of the loop; once it is used up no further attempt fails
spuriously, and the attempt then succeeds because the cell was loaded just
before. -/
def stop_and_kill (k : Kind) : List Bool → Registry → Registry
  | [], r =>
    match r.load k with
    | none => r
    | some p =>
      match compare_exchange_weak false (r.load k) (some p) none with
      | (true, cell, _) =>
        (((r.store k cell).emit (Event.stop k p)).emit (Event.destroy k p)).store k none
      | (false, _, _) => r
  | spurious :: sp, r =>
    match r.load k with
    | none => r
    | some p =>
      match compare_exchange_weak spurious (r.load k) (some p) none with
      | (true, cell, _) =>
        (((r.store k cell).emit (Event.stop k p)).emit (Event.destroy k p)).store k none
      | (false, _, _) => stop_and_kill k sp r

/-- The template `lazy_get(ptr)`.  The first argument bounds the depth of the
recursion; the result is `none` when that bound is reached before the
function returns, and the pointer returned otherwise. -/
def lazy_get (k : Kind) : Nat → Registry → Option Nat × Registry
  | 0, r => (none, r)
  | fuel + 1, r =>
    match r.load k with
    | some result => (some result, r)
    | none =>
      match r.new_object k with
      | (tmp, r1) =>
        match compare_exchange_strong (r1.load k) none (some tmp) with
        | (true, cell, _) => (some tmp, r1.store k cell)
        | (false, _, _) => lazy_get k fuel (r1.delete k (some tmp))

/-- The function `cppa::shutdown()`.  `self_` is `self.unchecked()`, the two lists are
the compare-and-swap outcomes for the two `stop_and_kill` calls. -/
def shutdown (self_ : Option Nat) (sp_nm sp_sched : List Bool) (r : Registry) : Registry :=
  let r := match self_ with
    | some a => r.emit (Event.quit a)
    | none => r
  let rptr := r.load Kind.actor_registry
  let r := match rptr with
    | some p => r.emit (Event.await_running_count_equal p 0)
    | none => r
  let r := stop_and_kill Kind.network_manager sp_nm r
  let r := stop_and_kill Kind.scheduler sp_sched r
  let r := r.emit Event.fence
  let r := r.delete Kind.actor_registry (r.load Kind.actor_registry)
  let r := r.store Kind.actor_registry none
  let r := r.delete Kind.group_manager (r.load Kind.group_manager)
  let r := r.store Kind.group_manager none
  let et := r.load Kind.empty_tuple
  let r := match et with
    | none => r
    | some p =>
      let r1 := { r with rc := (deref r.rc).1 }.emit (Event.deref p)
      if (deref r.rc).2 then r1 else r1.delete Kind.empty_tuple (some p)
  let r := r.store Kind.empty_tuple none
  let r := r.delete Kind.uniform_type_info_map (r.load Kind.uniform_type_info_map)
  let r := r.store Kind.uniform_type_info_map none
  let r := r.delete Kind.decorated_names_map (r.load Kind.decorated_names_map)
  r.store Kind.decorated_names_map none

/-- The getter `singleton_manager::get_actor_registry()`. -/
def get_actor_registry (fuel : Nat) (r : Registry) : Option Nat × Registry :=
  lazy_get Kind.actor_registry fuel r

/-- The getter `singleton_manager::get_uniform_type_info_map()`. -/
def get_uniform_type_info_map (fuel : Nat) (r : Registry) : Option Nat × Registry :=
  lazy_get Kind.uniform_type_info_map fuel r

/-- The getter `singleton_manager::get_group_manager()`. -/
def get_group_manager (fuel : Nat) (r : Registry) : Option Nat × Registry :=
  lazy_get Kind.group_manager fuel r

/-- The getter `singleton_manager::get_scheduler()`. -/
def get_scheduler (r : Registry) : Option Nat :=
  r.load Kind.scheduler

/-- The getter `singleton_manager::get_decorated_names_map()`. -/
def get_decorated_names_map (fuel : Nat) (r : Registry) : Option Nat × Registry :=
  lazy_get Kind.decorated_names_map fuel r

/-- Modelled from the spec: `network_manager::create_singleton()` (its definition is
not part of the sources at hand) constructs a network manager. -/
def create_singleton (r : Registry) : Nat × Registry :=
  r.new_object Kind.network_manager

/-- The function `singleton_manager::set_scheduler(ptr)` for a non-null `ptr`.
`sp_sched` and `sp_nm` say whether the weak compare-and-swap on
`s_scheduler`, respectively on `s_network_manager`, fails spuriously. -/
def set_scheduler (sp_sched sp_nm : Bool) (ptr : Nat) (r : Registry) : Bool × Registry :=
  match compare_exchange_weak sp_sched (r.load Kind.scheduler) none (some ptr) with
  | (true, cell, _) =>
    let r1 := (r.store Kind.scheduler cell).emit (Event.start Kind.scheduler ptr)
    match create_singleton r1 with
    | (nm, r2) =>
      match compare_exchange_weak sp_nm (r2.load Kind.network_manager) none (some nm) with
      | (true, cell2, _) =>
        (true, (r2.store Kind.network_manager cell2).emit (Event.start Kind.network_manager nm))
      | (false, _, _) => (true, r2.delete Kind.network_manager (some nm))
  | (false, _, _) => (false, r.delete Kind.scheduler (some ptr))

/-- The function `singleton_manager::get_network_manager()`.  The first argument bounds
the depth of the recursion (`none` when the bound is reached before the
function returns); the list gives, per nested `set_scheduler` call, the
spurious-failure flags of its two compare-and-swap attempts (none fails
spuriously once the list is used up). -/
def get_network_manager : Nat → List (Bool × Bool) → Registry → Option Nat × Registry
  | 0, _, r => (none, r)
  | fuel + 1, sp, r =>
    match r.load Kind.network_manager with
    | some result => (some result, r)
    | none =>
      match r.new_object Kind.scheduler with
      | (s, r1) =>
        get_network_manager fuel sp.tail
          (set_scheduler (sp.headD (false, false)).1 (sp.headD (false, false)).2 s r1).2

/-- The function `singleton_manager::get_empty_tuple()`; returns the pointer `result`
(`none` is `nullptr`).  `spurious` says whether the weak compare-and-swap
fails spuriously. -/
def get_empty_tuple (spurious : Bool) (r : Registry) : Option Nat × Registry :=
  match r.load Kind.empty_tuple with
  | some result => (some result, r)
  | none =>
    match r.new_object Kind.empty_tuple with
    | (tmp, r1) =>
      match compare_exchange_weak spurious (r1.load Kind.empty_tuple) none (some tmp) with
      | (false, _, expected) => (expected, r1.delete Kind.empty_tuple (some tmp))
      | (true, cell, _) =>
        (some tmp, { r1.store Kind.empty_tuple cell with rc := ref 0 }.emit (Event.ref tmp))

/-! ## Sequences of calls -/

/-- One call into the singleton manager, with everything that determines its outcome. -/
inductive Op where
  | get_actor_registry (fuel : Nat)
  | get_uniform_type_info_map (fuel : Nat)
  | get_group_manager (fuel : Nat)
  | get_decorated_names_map (fuel : Nat)
  | get_empty_tuple (spurious : Bool)
  | get_scheduler
  | set_scheduler (sp_sched sp_nm : Bool) (ptr : Nat)
  | get_network_manager (fuel : Nat) (sp : List (Bool × Bool))
  | shutdown (self_ : Option Nat) (sp_nm sp_sched : List Bool)

/-- The state after one call. -/
def Op.apply (r : Registry) : Op → Registry
  | Op.get_actor_registry fuel => (cppa.get_actor_registry fuel r).2
  | Op.get_uniform_type_info_map fuel => (cppa.get_uniform_type_info_map fuel r).2
  | Op.get_group_manager fuel => (cppa.get_group_manager fuel r).2
  | Op.get_decorated_names_map fuel => (cppa.get_decorated_names_map fuel r).2
  | Op.get_empty_tuple spurious => (cppa.get_empty_tuple spurious r).2
  | Op.get_scheduler => r
  | Op.set_scheduler sp_sched sp_nm ptr => (cppa.set_scheduler sp_sched sp_nm ptr r).2
  | Op.get_network_manager fuel sp => (cppa.get_network_manager fuel sp r).2
  | Op.shutdown self_ sp_nm sp_sched => cppa.shutdown self_ sp_nm sp_sched r

/-- Whether the call is `shutdown`. -/
def Op.is_shutdown : Op → Bool
  | Op.shutdown _ _ _ => true
  | _ => false

/-- The state after a sequence of calls, left to right. -/
def run (r : Registry) : List Op → Registry
  | [] => r
  | o :: os => run (Op.apply r o) os

/-- How often `start()` was called on a scheduler according to the trace, which is
how often `set_scheduler` took its success branch. -/
def scheduler_starts (t : List Event) : Nat :=
  t.countP (fun e => match e with
    | Event.start Kind.scheduler _ => true
    | _ => false)

/-- What every sequence of calls without `shutdown` maintains: the scheduler was started
at most once, and not at all while the scheduler slot is still empty. -/
def starts_invariant (r : Registry) : Prop :=
  scheduler_starts r.trace ≤ 1 ∧ (r.s_scheduler = none → scheduler_starts r.trace = 0)

/-- A sample sequence of calls: two competing installs around a request for the network
manager and a lazy getter. -/
def sample_calls : List Op :=
  [Op.set_scheduler false false 7, Op.get_network_manager 3 [], Op.get_actor_registry 1,
   Op.set_scheduler false false 8]

/-- The state after installing scheduler 7 into the empty registry. -/
def sample_installed : Registry :=
  (set_scheduler false false 7 Registry.empty).2

/-- The state after scheduler 7 claimed its slot while the compare-and-swap on the
network-manager slot failed spuriously. -/
def sample_half_installed : Registry :=
  run Registry.empty [Op.set_scheduler false true 7]

/-- The state after the empty tuple was created and the process was shut down. -/
def sample_after_shutdown : Registry :=
  run Registry.empty [Op.get_empty_tuple false, Op.shutdown none [] []]

end cppa

/-! # Theorems: `param<T>` -/

namespace caf
variable {T : Type}

theorem Heap.read_lt (m : Heap T) (a : Nat) (v : T) (h : m.read a = some v) :
    a < m.cells.length := by
  unfold Heap.read at h
  by_contra hc
  have : m.cells.get? a = none := by
    rw [List.get?_eq_none]; omega
  rw [this] at h
  simp at h

theorem Heap.read_alloc_old (m : Heap T) (v : T) (a : Nat) (h : a < m.cells.length) :
    (m.alloc v).2.read a = m.read a := by
  simp [Heap.read, Heap.alloc, List.getElem?_append_left h]

theorem Heap.read_alloc_new (m : Heap T) (v : T) :
    (m.alloc v).2.read m.cells.length = some v := by
  simp [Heap.read, Heap.alloc]

theorem Heap.read_write_ne (m : Heap T) (a b : Nat) (v : T) (h : b ≠ a) :
    (m.write a v).read b = m.read b := by
  simp [Heap.read, Heap.write, List.getElem?_set_ne h.symm]

theorem Heap.read_write_eq (m : Heap T) (a : Nat) (v : T) (h : a < m.cells.length) :
    (m.write a v).read a = some v := by
  simp [Heap.read, Heap.write, h]

theorem Heap.read_delete_ne (m : Heap T) (a b : Nat) (h : b ≠ a) :
    (m.delete (some a)).read b = m.read b := by
  simp [Heap.read, Heap.delete, List.getElem?_set_ne h.symm]

namespace param

/-- Claim C1, counterexample. The source of a move construction from a shared wrapper
keeps the mode `shared_access` while its pointer is `nullptr`: `get_mutable()`
on it has no object to copy, so no copy is made and no reference is
returned, although the mode is shared and the value is still alive. -/
theorem get_mutable_fails_on_moved_from_source :
    Heap.sample.read 0 = some 5 ∧
    (move_ctor (mk_param (some 0) true)).2.flag_ = flag.shared_access ∧
    (move_ctor (mk_param (some 0) true)).2.x_ = none ∧
    get_mutable (move_ctor (mk_param (some 0) true)).2 Heap.sample = none ∧
    move (move_ctor (mk_param (some 0) true)).2 Heap.sample = none := by
  refine ⟨rfl, rfl, rfl, rfl, rfl⟩

/-- Claim C1, amended. For a wrapper that refers to a live object (which excludes the
moved-from source of a move construction), `get_mutable()` returns, and it
copies exactly when the mode is `shared_access`: in shared mode exactly one
cell is allocated, it holds a copy of the value, the wrapper points at it
and the mode becomes `private_access`; in the other two modes heap, pointer
and mode are unchanged and the returned object is the one the wrapper
pointed to.  Afterwards the mode is exclusive or private, and a second
`get_mutable()` or `move()` returns the same object and changes nothing. -/
theorem get_mutable_copies_iff_shared (p : param) (m : Heap T) (v : T)
    (h : get p m = some v) :
    ∃ a p1 m1, get_mutable p m = some (a, p1, m1) ∧
      (p.flag_ = flag.shared_access →
        a = m.cells.length ∧ m1.cells = m.cells ++ [some v] ∧ m1.freed = m.freed ∧
        p1 = { x_ := some a, flag_ := flag.private_access } ∧
        m1.read a = some v ∧ p.x_ ≠ some a) ∧
      (p.flag_ ≠ flag.shared_access → m1 = m ∧ p1 = p ∧ p.x_ = some a) ∧
      (m1.cells.length = m.cells.length + 1 ↔ p.flag_ = flag.shared_access) ∧
      (m1.cells.length = m.cells.length ↔ p.flag_ ≠ flag.shared_access) ∧
      (p1.flag_ = flag.exclusive_access ∨ p1.flag_ = flag.private_access) ∧
      get_mutable p1 m1 = some (a, p1, m1) ∧
      move p1 m1 = some (a, p1, m1) := by
  obtain ⟨x, f⟩ := p
  cases x with
  | none => simp [get, Heap.deref] at h
  | some b =>
    have hr : m.read b = some v := by simpa [get, Heap.deref] using h
    have hlt : b < m.cells.length := Heap.read_lt m b v hr
    have hnew : (m.alloc v).2.read m.cells.length = some v := Heap.read_alloc_new m v
    cases f with
    | shared_access =>
      refine ⟨m.cells.length, { x_ := some m.cells.length, flag_ := flag.private_access },
        (m.alloc v).2, ?_, ?_, ?_, ?_, ?_, ?_, ?_, ?_⟩
      · simp [get_mutable, get, Heap.deref, hr, Heap.alloc]
      · intro _
        refine ⟨rfl, rfl, rfl, rfl, hnew, ?_⟩
        simp only [ne_eq, Option.some.injEq]
        omega
      · intro hc; exact absurd rfl hc
      · simp [Heap.alloc]
      · simp [Heap.alloc]
      · exact Or.inr rfl
      · simp [get_mutable, hnew]
      · simp [move, get_mutable, hnew]
    | exclusive_access =>
      refine ⟨b, { x_ := some b, flag_ := flag.exclusive_access }, m, ?_, ?_, ?_, ?_, ?_, ?_, ?_, ?_⟩
      · simp [get_mutable, hr]
      · intro hc; cases hc
      · intro _; exact ⟨rfl, rfl, rfl⟩
      · simp
      · simp
      · exact Or.inl rfl
      · simp [get_mutable, hr]
      · simp [move, get_mutable, hr]
    | private_access =>
      refine ⟨b, { x_ := some b, flag_ := flag.private_access }, m, ?_, ?_, ?_, ?_, ?_, ?_, ?_, ?_⟩
      · simp [get_mutable, hr]
      · intro hc; cases hc
      · intro _; exact ⟨rfl, rfl, rfl⟩
      · simp
      · simp
      · exact Or.inr rfl
      · simp [get_mutable, hr]
      · simp [move, get_mutable, hr]

/-- Witness for claim C1: a shared wrapper over a heap with one object. -/
theorem get_mutable_copies_iff_shared_witness :
    get (mk_param (some 0) true) ({ cells := [some 5], freed := [] } : Heap Nat) = some 5 ∧
    ∃ a p1 m1, get_mutable (mk_param (some 0) true)
        ({ cells := [some 5], freed := [] } : Heap Nat) = some (a, p1, m1) ∧
      ((mk_param (some 0) true).flag_ = flag.shared_access →
        a = ({ cells := [some 5], freed := [] } : Heap Nat).cells.length ∧
        m1.cells = ({ cells := [some 5], freed := [] } : Heap Nat).cells ++ [some 5] ∧
        m1.freed = ({ cells := [some 5], freed := [] } : Heap Nat).freed ∧
        p1 = { x_ := some a, flag_ := flag.private_access } ∧
        m1.read a = some 5 ∧ (mk_param (some 0) true).x_ ≠ some a) ∧
      ((mk_param (some 0) true).flag_ ≠ flag.shared_access →
        m1 = ({ cells := [some 5], freed := [] } : Heap Nat) ∧
        p1 = mk_param (some 0) true ∧ (mk_param (some 0) true).x_ = some a) ∧
      (m1.cells.length = ({ cells := [some 5], freed := [] } : Heap Nat).cells.length + 1 ↔
        (mk_param (some 0) true).flag_ = flag.shared_access) ∧
      (m1.cells.length = ({ cells := [some 5], freed := [] } : Heap Nat).cells.length ↔
        (mk_param (some 0) true).flag_ ≠ flag.shared_access) ∧
      (p1.flag_ = flag.exclusive_access ∨ p1.flag_ = flag.private_access) ∧
      get_mutable p1 m1 = some (a, p1, m1) ∧
      move p1 m1 = some (a, p1, m1) :=
  ⟨rfl, get_mutable_copies_iff_shared _ _ 5 rfl⟩

/-- Claim C2. For a wrapper constructed with `is_shared = true` over a live value `V` at
`ptr`, `get_mutable()` returns a fresh object (its address held no object
before and differs from `ptr`) whose content is `V`; assigning any `w`
through the returned reference changes that object only: `V` is still
stored at `ptr`, every other address reads as before the call, and `get()`
on any wrapper pointing at `ptr` still yields `V`. -/
theorem get_mutable_shared_leaves_original (m : Heap T) (ptr : Nat) (V : T)
    (h : m.read ptr = some V) :
    ∃ cpy p1 m1, get_mutable (mk_param (some ptr) true) m = some (cpy, p1, m1) ∧
      cpy ≠ ptr ∧ m.read cpy = none ∧ m1.read cpy = some V ∧ m1.read ptr = some V ∧
      get p1 m1 = some V ∧
      ∀ w : T,
        (m1.write cpy w).read cpy = some w ∧
        (m1.write cpy w).read ptr = some V ∧
        (∀ a, a ≠ cpy → (m1.write cpy w).read a = m.read a) ∧
        (∀ q : param, q.x_ = some ptr → get q (m1.write cpy w) = some V) := by
  have hlt : ptr < m.cells.length := Heap.read_lt m ptr V h
  have hne : m.cells.length ≠ ptr := by omega
  have hnew : (m.alloc V).2.read m.cells.length = some V := Heap.read_alloc_new m V
  have hold : ∀ a, a ≠ m.cells.length → (m.alloc V).2.read a = m.read a := by
    intro a ha
    by_cases hl : a < m.cells.length
    · exact Heap.read_alloc_old m V a hl
    · have h1 : m.cells.length < a := by omega
      have e1 : (m.cells ++ [some V]).get? a = none := by
        rw [List.get?_eq_none]; simp; omega
      have e2 : m.cells.get? a = none := by
        rw [List.get?_eq_none]; omega
      simp only [Heap.read, Heap.alloc, e1, e2]
  refine ⟨m.cells.length, { x_ := some m.cells.length, flag_ := flag.private_access },
    (m.alloc V).2, ?_, hne, ?_, hnew, ?_, ?_, ?_⟩
  · simp [get_mutable, mk_param, get, Heap.deref, h, Heap.alloc]
  · simp [Heap.read]
  · rw [hold ptr (Ne.symm hne)]; exact h
  · simpa [get, Heap.deref] using hnew
  · intro w
    have hptr : ((m.alloc V).2.write m.cells.length w).read ptr = some V := by
      rw [Heap.read_write_ne _ _ _ _ (Ne.symm hne), hold ptr (Ne.symm hne)]; exact h
    refine ⟨?_, hptr, ?_, ?_⟩
    · apply Heap.read_write_eq
      simp [Heap.alloc]
    · intro a ha
      rw [Heap.read_write_ne _ _ _ _ ha, hold a ha]
    · intro q hq
      simpa [get, Heap.deref, hq] using hptr

/-- Witness for claim C2: the value 5 at address 0. -/
theorem get_mutable_shared_leaves_original_witness :
    ({ cells := [some 5], freed := [] } : Heap Nat).read 0 = some 5 ∧
    ∃ cpy p1 m1, get_mutable (mk_param (some 0) true)
        ({ cells := [some 5], freed := [] } : Heap Nat) = some (cpy, p1, m1) ∧
      cpy ≠ 0 ∧ ({ cells := [some 5], freed := [] } : Heap Nat).read cpy = none ∧
      m1.read cpy = some 5 ∧ m1.read 0 = some 5 ∧
      get p1 m1 = some 5 ∧
      ∀ w : Nat,
        (m1.write cpy w).read cpy = some w ∧
        (m1.write cpy w).read 0 = some 5 ∧
        (∀ a, a ≠ cpy →
          (m1.write cpy w).read a = ({ cells := [some 5], freed := [] } : Heap Nat).read a) ∧
        (∀ q : param, q.x_ = some 0 → get q (m1.write cpy w) = some 5) :=
  ⟨rfl, get_mutable_shared_leaves_original _ 0 5 rfl⟩

end param

/-! ## Chains of wrappers -/

theorem Heap.read_isSome_lt (m : Heap T) (a : Nat) (h : (m.read a).isSome) :
    a < m.cells.length := by
  obtain ⟨v, hv⟩ := Option.isSome_iff_exists.mp h
  exact Heap.read_lt m a v hv

theorem Chain.inv_start (m0 : Heap T) (ptr : Nat) (is_shared : Bool)
    (h : (m0.read ptr).isSome) : Chain.Inv m0 ptr (Chain.start (some ptr) is_shared m0) := by
  refine ⟨by simp [Chain.start], rfl, h, Or.inl ⟨?_, rfl, rfl⟩⟩
  cases is_shared <;> simp [Chain.start, param.mk_param]

theorem param.get_mutable_shared (x : Ptr) (m : Heap T) (v : T)
    (h : m.deref x = some v) :
    param.get_mutable { x_ := x, flag_ := flag.shared_access } m =
      some (m.cells.length, { x_ := some m.cells.length, flag_ := flag.private_access },
        (m.alloc v).2) := by
  simp [param.get_mutable, param.get, h, Heap.alloc]

theorem param.get_mutable_owned (a : Nat) (f : flag) (m : Heap T) (v : T)
    (h : m.read a = some v) (hf : f ≠ flag.shared_access) :
    param.get_mutable { x_ := some a, flag_ := f } m = some (a, { x_ := some a, flag_ := f }, m) := by
  simp [param.get_mutable, hf, h]

theorem Chain.inv_step (m0 : Heap T) (ptr : Nat) (h0 : ptr < m0.cells.length)
    (c : Chain T) (hc : Chain.Inv m0 ptr c) (act : Action T) :
    ∃ c1, c.step act = some c1 ∧ Chain.Inv m0 ptr c1 := by
  obtain ⟨hd, hs, m⟩ := c
  obtain ⟨hh, hf, hp, hcase⟩ := hc
  simp only at hh hf hp hcase
  obtain ⟨V, hV⟩ := Option.isSome_iff_exists.mp hp
  have hne : m0.cells.length ≠ ptr := by omega
  have husk : ∀ y g, ∀ q ∈ (param.move_ctor { x_ := y, flag_ := g }).2 :: hs, q.x_ = none := by
    intro y g q hq
    rcases List.mem_cons.mp hq with rfl | hq
    · rfl
    · exact hh q hq
  rcases hcase with ⟨hfl, hx, hlen⟩ | ⟨hfl, hx, hlen, hlive⟩
  · -- no copy made so far
    obtain ⟨x, f⟩ := hd
    simp only at hfl hx hlen
    subst hx
    have hlt : ptr < m.cells.length := by omega
    cases f with
    | private_access => exact absurd rfl hfl
    | exclusive_access =>
      have hgm := param.get_mutable_owned ptr flag.exclusive_access m V hV (by simp)
      cases act with
      | get_mutable =>
        simp only [Chain.step, hgm]
        exact ⟨_, rfl, hh, hf, hp, Or.inl ⟨by simp, rfl, hlen⟩⟩
      | move =>
        simp only [Chain.step, param.move, hgm]
        exact ⟨_, rfl, hh, hf, hp, Or.inl ⟨by simp, rfl, hlen⟩⟩
      | assign w =>
        simp only [Chain.step, hgm]
        refine ⟨_, rfl, hh, hf, ?_, Or.inl ⟨by simp, rfl, by simpa [Heap.write] using hlen⟩⟩
        simp [Heap.read_write_eq m ptr w hlt]
      | move_construct =>
        simp only [Chain.step]
        exact ⟨_, rfl, husk _ _, hf, hp, Or.inl ⟨by simp [param.move_ctor], rfl, hlen⟩⟩
    | shared_access =>
      have hgm := param.get_mutable_shared (some ptr) m V (by simpa [Heap.deref] using hV)
      have hnew : (m.alloc V).2.read m0.cells.length = some V := by
        rw [← hlen]; exact Heap.read_alloc_new m V
      have hold : (m.alloc V).2.read ptr = some V := by
        rw [Heap.read_alloc_old m V ptr hlt]; exact hV
      have hlen1 : (m.alloc V).2.cells.length = m0.cells.length + 1 := by
        simp [Heap.alloc, hlen]
      cases act with
      | get_mutable =>
        simp only [Chain.step, hgm]
        exact ⟨_, rfl, hh, hf, by simp [hold],
          Or.inr ⟨rfl, by simp [hlen], hlen1, by simp [hnew]⟩⟩
      | move =>
        simp only [Chain.step, param.move, hgm]
        exact ⟨_, rfl, hh, hf, by simp [hold],
          Or.inr ⟨rfl, by simp [hlen], hlen1, by simp [hnew]⟩⟩
      | assign w =>
        simp only [Chain.step, hgm]
        refine ⟨_, rfl, hh, hf, ?_, Or.inr ⟨rfl, by simp [hlen], ?_, ?_⟩⟩
        · simp only
          rw [Heap.read_write_ne _ _ _ _ (by omega), hold]; rfl
        · simpa [Heap.write] using hlen1
        · simp only
          rw [← hlen, Heap.read_write_eq _ _ _ (by simp [Heap.alloc])]; rfl
      | move_construct =>
        simp only [Chain.step]
        exact ⟨_, rfl, husk _ _, hf, hp, Or.inl ⟨by simp [param.move_ctor], rfl, hlen⟩⟩
  · -- the head owns the copy
    obtain ⟨x, f⟩ := hd
    simp only at hfl hx hlen hlive
    subst hx hfl
    obtain ⟨W, hW⟩ := Option.isSome_iff_exists.mp hlive
    have hgm := param.get_mutable_owned m0.cells.length flag.private_access m W hW (by simp)
    cases act with
    | get_mutable =>
      simp only [Chain.step, hgm]
      exact ⟨_, rfl, hh, hf, hp, Or.inr ⟨rfl, rfl, hlen, hlive⟩⟩
    | move =>
      simp only [Chain.step, param.move, hgm]
      exact ⟨_, rfl, hh, hf, hp, Or.inr ⟨rfl, rfl, hlen, hlive⟩⟩
    | assign w =>
      simp only [Chain.step, hgm]
      refine ⟨_, rfl, hh, hf, ?_, Or.inr ⟨rfl, rfl, by simpa [Heap.write] using hlen, ?_⟩⟩
      · simp only
        rw [Heap.read_write_ne _ _ _ _ (Ne.symm hne)]; exact hp
      · simp only
        rw [Heap.read_write_eq _ _ _ (by omega)]; rfl
    | move_construct =>
      simp only [Chain.step]
      exact ⟨_, rfl, husk _ _, hf, hp, Or.inr ⟨rfl, rfl, hlen, hlive⟩⟩

theorem Chain.inv_run (m0 : Heap T) (ptr : Nat) (h0 : ptr < m0.cells.length)
    (acts : List (Action T)) :
    ∀ c : Chain T, Chain.Inv m0 ptr c → ∃ c1, c.run acts = some c1 ∧ Chain.Inv m0 ptr c1 := by
  induction acts with
  | nil => intro c hc; exact ⟨c, rfl, hc⟩
  | cons a as ih =>
    intro c hc
    obtain ⟨c1, h1, hi1⟩ := Chain.inv_step m0 ptr h0 c hc a
    obtain ⟨c2, h2, hi2⟩ := ih c1 hi1
    exact ⟨c2, by simp [Chain.run, h1, h2], hi2⟩

/-! ## Destruction -/

theorem param.dtor_freed_count (p : param) (m : Heap T) (a : Nat) :
    (param.dtor p m).freed.count a =
      m.freed.count a + if p.flag_ = flag.private_access ∧ p.x_ = some a then 1 else 0 := by
  obtain ⟨x, f⟩ := p
  cases f <;> cases x <;> simp [param.dtor, Heap.delete, List.count_append, List.count_singleton]

theorem param.dtor_read (p : param) (m : Heap T) (a : Nat)
    (h : ¬ (p.flag_ = flag.private_access ∧ p.x_ = some a)) :
    (param.dtor p m).read a = m.read a := by
  obtain ⟨x, f⟩ := p
  cases f <;> cases x <;> simp [param.dtor, Heap.delete] at h ⊢
  rename_i b
  exact Heap.read_delete_ne m b a (fun e => h e.symm)

theorem dtor_all_freed_count (ws : List param) :
    ∀ (m : Heap T) (a : Nat), (dtor_all ws m).freed.count a =
      m.freed.count a +
        ws.countP (fun p => decide (p.flag_ = flag.private_access ∧ p.x_ = some a)) := by
  induction ws with
  | nil => intro m a; simp [dtor_all]
  | cons p ps ih =>
    intro m a
    have e : dtor_all (p :: ps) m = dtor_all ps (param.dtor p m) := rfl
    rw [e, ih, param.dtor_freed_count, List.countP_cons]
    simp only [decide_eq_true_eq]
    omega

theorem dtor_all_read (ws : List param) :
    ∀ (m : Heap T) (a : Nat),
      (∀ p ∈ ws, ¬ (p.flag_ = flag.private_access ∧ p.x_ = some a)) →
      (dtor_all ws m).read a = m.read a := by
  induction ws with
  | nil => intro m a _; rfl
  | cons p ps ih =>
    intro m a h
    have e : dtor_all (p :: ps) m = dtor_all ps (param.dtor p m) := rfl
    rw [e, ih _ _ (fun q hq => h q (List.mem_cons_of_mem _ hq)),
      param.dtor_read p m a (h p (List.mem_cons_self _ _))]

theorem Chain.inv_private_count (m0 : Heap T) (ptr : Nat) (c : Chain T)
    (hc : Chain.Inv m0 ptr c) (a : Nat) :
    c.wrappers.countP (fun p => decide (p.flag_ = flag.private_access ∧ p.x_ = some a)) =
      if m0.cells.length ≤ a ∧ a < c.heap.cells.length then 1 else 0 := by
  obtain ⟨hh, _, _, hcase⟩ := hc
  have hz : c.husks.countP
      (fun p => decide (p.flag_ = flag.private_access ∧ p.x_ = some a)) = 0 := by
    rw [List.countP_eq_zero]
    intro q hq
    simp [hh q hq]
  rw [Chain.wrappers, List.countP_cons, hz]
  rcases hcase with ⟨hfl, _, hlen⟩ | ⟨hfl, hx, hlen, _⟩
  · have h1 : ¬ (m0.cells.length ≤ a ∧ a < c.heap.cells.length) := by omega
    simp [hfl, h1]
  · by_cases ha : a = m0.cells.length
    · subst ha
      simp [hfl, hx, hlen]
    · have h1 : ¬ (m0.cells.length ≤ a ∧ a < c.heap.cells.length) := by omega
      have h2 : ¬ (m0.cells.length = a) := fun e => ha e.symm
      simp [hfl, hx, h1, h2]

/-- Claim C10. The destructor frees nothing unless the mode is `private_access`.  For a
wrapper constructed over a live message value at `ptr`, after any sequence
of `get_mutable()`, `move()`, assignments and move constructions, destroying
all wrappers of the chain in any order frees exactly the cells allocated
since construction (the private copy made by `get_mutable()`, if any), each
exactly once, and nothing else: the message value at `ptr` is not freed and
is still alive. -/
theorem dtor_frees_exactly_private_copy (m : Heap T) (ptr : Nat) (V : T)
    (is_shared : Bool) (acts : List (Action T)) (h : m.read ptr = some V) :
    (∀ (p : param) (m1 : Heap T), p.flag_ ≠ flag.private_access → param.dtor p m1 = m1) ∧
    (∀ (p : param) (m1 : Heap T), p.x_ = none → param.dtor p m1 = m1) ∧
    ∃ c, (Chain.start (some ptr) is_shared m).run acts = some c ∧
      (c.heap.cells.length = m.cells.length ∨ c.heap.cells.length = m.cells.length + 1) ∧
      (c.heap.cells.length = m.cells.length + 1 ↔ c.head.flag_ = flag.private_access) ∧
      ∀ ws, ws.Perm c.wrappers →
        (∀ a, (dtor_all ws c.heap).freed.count a =
          m.freed.count a + if m.cells.length ≤ a ∧ a < c.heap.cells.length then 1 else 0) ∧
        (dtor_all ws c.heap).freed.count ptr = m.freed.count ptr ∧
        (dtor_all ws c.heap).read ptr = c.heap.read ptr ∧
        (c.heap.read ptr).isSome := by
  have hlt : ptr < m.cells.length := Heap.read_lt m ptr V h
  refine ⟨?_, ?_, ?_⟩
  · intro p m1 hp
    simp [param.dtor, hp]
  · intro p m1 hp
    simp [param.dtor, hp, Heap.delete]
  · obtain ⟨c, hrun, hinv⟩ := Chain.inv_run m ptr hlt acts _
      (Chain.inv_start m ptr is_shared (by simp [h]))
    have hcount := Chain.inv_private_count m ptr c hinv
    obtain ⟨hh, hf, hp, hcase⟩ := hinv
    refine ⟨c, hrun, ?_, ?_, ?_⟩
    · rcases hcase with ⟨_, _, hlen⟩ | ⟨_, _, hlen, _⟩
      · exact Or.inl hlen
      · exact Or.inr hlen
    · rcases hcase with ⟨hfl, _, hlen⟩ | ⟨hfl, _, hlen, _⟩
      · constructor
        · intro e; omega
        · intro e; exact absurd e hfl
      · exact ⟨fun _ => hfl, fun _ => hlen⟩
    · intro ws hperm
      have hall : ∀ a, (dtor_all ws c.heap).freed.count a =
          m.freed.count a + if m.cells.length ≤ a ∧ a < c.heap.cells.length then 1 else 0 := by
        intro a
        rw [dtor_all_freed_count, hperm.countP_eq, hcount a, hf]
      refine ⟨hall, ?_, ?_, hp⟩
      · rw [hall ptr]
        have : ¬ (m.cells.length ≤ ptr ∧ ptr < c.heap.cells.length) := by omega
        simp [this]
      · apply dtor_all_read
        intro q hq
        have hq1 : q ∈ c.wrappers := hperm.mem_iff.mp hq
        rcases List.mem_cons.mp hq1 with rfl | hq2
        · rcases hcase with ⟨hfl, _, _⟩ | ⟨_, hx, _, _⟩
          · exact fun e => hfl e.1
          · intro e
            rw [hx] at e
            have := e.2
            simp only [Option.some.injEq] at this
            omega
        · intro e
          rw [hh q hq2] at e
          exact absurd e.2 (by simp)

/-- Witness for claim C10: a shared wrapper is detached, then moved into a new wrapper. -/
theorem dtor_frees_exactly_private_copy_witness :
    Heap.sample.read 0 = some 5 ∧
    (∀ (p : param) (m1 : Heap Nat), p.flag_ ≠ flag.private_access → param.dtor p m1 = m1) ∧
    (∀ (p : param) (m1 : Heap Nat), p.x_ = none → param.dtor p m1 = m1) ∧
    ∃ c, (Chain.start (some 0) true Heap.sample).run
        [Action.get_mutable, Action.move_construct] = some c ∧
      (c.heap.cells.length = Heap.sample.cells.length ∨
        c.heap.cells.length = Heap.sample.cells.length + 1) ∧
      (c.heap.cells.length = Heap.sample.cells.length + 1 ↔
        c.head.flag_ = flag.private_access) ∧
      ∀ ws, ws.Perm c.wrappers →
        (∀ a, (dtor_all ws c.heap).freed.count a =
          Heap.sample.freed.count a +
            if Heap.sample.cells.length ≤ a ∧ a < c.heap.cells.length then 1 else 0) ∧
        (dtor_all ws c.heap).freed.count 0 = Heap.sample.freed.count 0 ∧
        (dtor_all ws c.heap).read 0 = c.heap.read 0 ∧
        (c.heap.read 0).isSome :=
  ⟨rfl, dtor_frees_exactly_private_copy Heap.sample 0 5 true
    [Action.get_mutable, Action.move_construct] rfl⟩

/-! ## Availability of `get()` -/

/-- Claim C9, counterexample. The wrapper left behind as the source of a move construction
holds `nullptr`: `get()` on it has no object to return, although the value
it used to refer to is still alive. -/
theorem get_fails_on_moved_from_source :
    Heap.sample.read 0 = some 5 ∧
    (param.move_ctor (param.mk_param (some 0) true)).2.x_ = none ∧
    param.get (param.move_ctor (param.mk_param (some 0) true)).2 Heap.sample = none ∧
    param.get (param.move_ctor (param.mk_param (some 0) false)).2 Heap.sample = none := by
  refine ⟨rfl, rfl, rfl, rfl⟩

/-- Claim C9, amended. For a wrapper constructed over a live value with either flag, after
any sequence of `get_mutable()`, `move()`, assignments and move
constructions, the wrapper that holds the value (the constructed one or the
target of the latest move construction) points at a live object and `get()`
returns that object; `get()` is a pure read of pointer and heap, so nothing
is copied and neither pointer nor mode changes.  Moved-from sources are
excluded. -/
theorem get_available_on_value_holder (m : Heap T) (ptr : Nat) (V : T)
    (is_shared : Bool) (acts : List (Action T)) (h : m.read ptr = some V) :
    ∃ c, (Chain.start (some ptr) is_shared m).run acts = some c ∧
      ∃ a v, c.head.x_ = some a ∧ c.heap.read a = some v ∧
        param.get c.head c.heap = some v ∧
        (acts = [] → a = ptr ∧ v = V) := by
  have hlt : ptr < m.cells.length := Heap.read_lt m ptr V h
  obtain ⟨c, hrun, hinv⟩ := Chain.inv_run m ptr hlt acts _
    (Chain.inv_start m ptr is_shared (by simp [h]))
  obtain ⟨_, _, hp, hcase⟩ := hinv
  refine ⟨c, hrun, ?_⟩
  have hnil : acts = [] → c = Chain.start (some ptr) is_shared m := by
    intro e
    subst e
    simpa [Chain.run] using hrun.symm
  rcases hcase with ⟨_, hx, _⟩ | ⟨_, hx, _, hlive⟩
  · obtain ⟨v, hv⟩ := Option.isSome_iff_exists.mp hp
    refine ⟨ptr, v, hx, hv, by simp [param.get, Heap.deref, hx, hv], ?_⟩
    intro e
    have hc := hnil e
    subst hc
    refine ⟨rfl, ?_⟩
    have : some v = some V := by rw [← hv]; exact h
    simpa using this
  · obtain ⟨v, hv⟩ := Option.isSome_iff_exists.mp hlive
    refine ⟨m.cells.length, v, hx, hv, by simp [param.get, Heap.deref, hx, hv], ?_⟩
    intro e
    have hc := hnil e
    subst hc
    simp [Chain.start, param.mk_param] at hx
    omega

/-- Witness for claim C9: an exclusive wrapper that is moved and then assigned to. -/
theorem get_available_on_value_holder_witness :
    Heap.sample.read 0 = some 5 ∧
    ∃ c, (Chain.start (some 0) false Heap.sample).run
        [Action.move_construct, Action.assign 7] = some c ∧
      ∃ a v, c.head.x_ = some a ∧ c.heap.read a = some v ∧
        param.get c.head c.heap = some v ∧
        (([Action.move_construct, Action.assign 7] : List (Action Nat)) = [] → a = 0 ∧ v = 5) :=
  ⟨rfl, get_available_on_value_holder Heap.sample 0 5 false
    [Action.move_construct, Action.assign 7] rfl⟩

end caf

/-! # Theorems: singleton manager -/

namespace cppa

/-! ## Loops and recursion -/

theorem compare_exchange_strong_self (cell desired : Option Nat) :
    compare_exchange_strong cell cell desired = (true, desired, cell) := by
  simp [compare_exchange_strong]

theorem Registry.load_new_object (r : Registry) (k k1 : Kind) :
    (r.new_object k).2.load k1 = r.load k1 := by
  cases k1 <;> rfl

theorem Registry.load_store_same (r : Registry) (k : Kind) (v : Option Nat) :
    (r.store k v).load k = v := by
  cases k <;> rfl

theorem Registry.load_store_other (r : Registry) (k k1 : Kind) (v : Option Nat) (h : k1 ≠ k) :
    (r.store k v).load k1 = r.load k1 := by
  cases k <;> cases k1 <;> first | rfl | exact absurd rfl h

theorem stop_and_kill_nil (k : Kind) (r : Registry) :
    stop_and_kill k [] r =
      match r.load k with
      | none => r
      | some p =>
        match compare_exchange_weak false (r.load k) (some p) none with
        | (true, cell, _) =>
          (((r.store k cell).emit (Event.stop k p)).emit (Event.destroy k p)).store k none
        | (false, _, _) => r := by
  rfl

theorem stop_and_kill_cons (k : Kind) (b : Bool) (sp : List Bool) (r : Registry) :
    stop_and_kill k (b :: sp) r =
      match r.load k with
      | none => r
      | some p =>
        match compare_exchange_weak b (r.load k) (some p) none with
        | (true, cell, _) =>
          (((r.store k cell).emit (Event.stop k p)).emit (Event.destroy k p)).store k none
        | (false, _, _) => stop_and_kill k sp r := by
  rfl

/-- The loop of `stop_and_kill` ends with the same state however many attempts fail
spuriously. -/
theorem stop_and_kill_eq (k : Kind) (sp : List Bool) :
    ∀ r : Registry, stop_and_kill k sp r =
      match r.load k with
      | none => r
      | some p =>
        (((r.store k none).emit (Event.stop k p)).emit (Event.destroy k p)).store k none := by
  induction sp with
  | nil =>
    intro r
    rw [stop_and_kill_nil]
    cases h : r.load k with
    | none => rfl
    | some p => simp [compare_exchange_weak, compare_exchange_strong]
  | cons b bs ih =>
    intro r
    rw [stop_and_kill_cons]
    cases h : r.load k with
    | none => rfl
    | some p =>
      cases b with
      | true =>
        simp only [compare_exchange_weak, if_true]
        rw [ih r, h]
      | false => simp [compare_exchange_weak, compare_exchange_strong]

/-- With one level of recursion allowed `lazy_get` returns: the published instance if
there is one, otherwise a newly constructed instance, which it publishes. -/
theorem lazy_get_eq (k : Kind) (fuel : Nat) (r : Registry) :
    lazy_get k (fuel + 1) r =
      match r.load k with
      | some p => (some p, r)
      | none => (some r.next, (r.new_object k).2.store k (some r.next)) := by
  unfold lazy_get
  cases h : r.load k with
  | some p => rfl
  | none =>
    have e : (r.new_object k).2.load k = none := by rw [Registry.load_new_object, h]
    simp only [Registry.new_object] at e ⊢
    rw [e, compare_exchange_strong_self]

/-! ## Shutdown -/

/-- The state after `shutdown()`, in closed form. -/
theorem shutdown_eq (self_ : Option Nat) (sp_nm sp_sched : List Bool) (r : Registry) :
    shutdown self_ sp_nm sp_sched r =
      { s_uniform_type_info_map := none, s_decorated_names_map := none,
        s_network_manager := none, s_actor_registry := none, s_group_manager := none,
        s_empty_tuple := none, s_scheduler := none,
        next := r.next,
        rc := (match r.s_empty_tuple with
          | some _ => r.rc - 1
          | none => r.rc),
        trace := r.trace
          ++ (self_.map Event.quit).toList
          ++ (r.s_actor_registry.map (fun p => Event.await_running_count_equal p 0)).toList
          ++ (match r.s_network_manager with
            | some p => [Event.stop Kind.network_manager p, Event.destroy Kind.network_manager p]
            | none => [])
          ++ (match r.s_scheduler with
            | some p => [Event.stop Kind.scheduler p, Event.destroy Kind.scheduler p]
            | none => [])
          ++ [Event.fence]
          ++ (r.s_actor_registry.map (Event.destroy Kind.actor_registry)).toList
          ++ (r.s_group_manager.map (Event.destroy Kind.group_manager)).toList
          ++ (match r.s_empty_tuple with
            | some p =>
              if 0 < r.rc - 1 then [Event.deref p]
              else [Event.deref p, Event.destroy Kind.empty_tuple p]
            | none => [])
          ++ (r.s_uniform_type_info_map.map (Event.destroy Kind.uniform_type_info_map)).toList
          ++ (r.s_decorated_names_map.map (Event.destroy Kind.decorated_names_map)).toList } := by
  obtain ⟨u, d, n, a, g, e, s, nx, rc, t⟩ := r
  unfold shutdown
  lift_lets
  intro r1 rptr r2 r3 r4 r5 r6 r7 r8 r9 et r10 r11 r12 r13 r14
  have h1 : r1 = ⟨u, d, n, a, g, e, s, nx, rc, t ++ (self_.map Event.quit).toList⟩ := by
    cases self_ <;> simp [r1, Registry.emit]
  have h2 : r2 = ⟨u, d, n, a, g, e, s, nx, rc, t ++ (self_.map Event.quit).toList
      ++ (a.map (fun p => Event.await_running_count_equal p 0)).toList⟩ := by
    simp only [r2, rptr, h1, Registry.load]
    cases a <;> simp [Registry.emit]
  have h3 : r3 = ⟨u, d, none, a, g, e, s, nx, rc, r2.trace
      ++ n.elim [] (fun p =>
        [Event.stop Kind.network_manager p, Event.destroy Kind.network_manager p])⟩ := by
    simp only [r3, h2, stop_and_kill_eq, Registry.load]
    cases n <;> simp [Registry.emit, Registry.store]
  have h4 : r4 = ⟨u, d, none, a, g, e, none, nx, rc, r3.trace
      ++ s.elim [] (fun p => [Event.stop Kind.scheduler p, Event.destroy Kind.scheduler p])⟩ := by
    simp only [r4, h3, stop_and_kill_eq, Registry.load]
    cases s <;> simp [Registry.emit, Registry.store]
  have h7 : r7 = ⟨u, d, none, none, g, e, none, nx, rc, r4.trace ++ [Event.fence]
      ++ (a.map (Event.destroy Kind.actor_registry)).toList⟩ := by
    simp only [r7, r6, r5, h4, Registry.load, Registry.emit]
    cases a <;> simp [Registry.delete, Registry.emit, Registry.store]
  have h9 : r9 = ⟨u, d, none, none, none, e, none, nx, rc, r7.trace
      ++ (g.map (Event.destroy Kind.group_manager)).toList⟩ := by
    simp only [r9, r8, h7, Registry.load]
    cases g <;> simp [Registry.delete, Registry.emit, Registry.store]
  have h11 : r11 = ⟨u, d, none, none, none, none, none, nx,
      e.elim rc (fun _ => rc - 1),
      r9.trace ++ e.elim [] (fun p =>
          if 0 < rc - 1 then [Event.deref p]
          else [Event.deref p, Event.destroy Kind.empty_tuple p])⟩ := by
    simp only [r11, r10, et, h9, Registry.load]
    cases e with
    | none => simp [Registry.store]
    | some p =>
      by_cases h : 0 < rc - 1 <;>
        simp [deref, h, Registry.delete, Registry.emit, Registry.store]
  have h13 : r13 = ⟨none, d, none, none, none, none, none, nx, r11.rc, r11.trace
      ++ (u.map (Event.destroy Kind.uniform_type_info_map)).toList⟩ := by
    simp only [r13, r12, h11, Registry.load]
    cases u <;> simp [Registry.delete, Registry.emit, Registry.store]
  have h15 : r14.store Kind.decorated_names_map none =
      ⟨none, none, none, none, none, none, none, nx, r13.rc, r13.trace
      ++ (d.map (Event.destroy Kind.decorated_names_map)).toList⟩ := by
    simp only [r14, h13, Registry.load]
    cases d <;> simp [Registry.delete, Registry.emit, Registry.store]
  rw [h15, h13, h11, h9, h7, h4, h3, h2]
  cases n <;> cases s <;> cases e <;> simp

/-- Claim C7. The effects of one `shutdown()` call, in order: the quit of the current
actor (if any), the drain on the actor registry (only if it exists), stop
and destruction of the network manager, stop and destruction of the
scheduler, the fence, and only then the passive singletons: actor registry,
group manager, the empty tuple (one `deref`, followed by its destruction
exactly when no other referent remains), type-info map, decorated-names
map.  A null slot contributes no effect. -/
theorem shutdown_effects_in_order (self_ : Option Nat) (sp_nm sp_sched : List Bool)
    (r : Registry) :
    (shutdown self_ sp_nm sp_sched r).trace =
      r.trace
        ++ (self_.map Event.quit).toList
        ++ (r.s_actor_registry.map (fun p => Event.await_running_count_equal p 0)).toList
        ++ (match r.s_network_manager with
          | some p => [Event.stop Kind.network_manager p, Event.destroy Kind.network_manager p]
          | none => [])
        ++ (match r.s_scheduler with
          | some p => [Event.stop Kind.scheduler p, Event.destroy Kind.scheduler p]
          | none => [])
        ++ [Event.fence]
        ++ (r.s_actor_registry.map (Event.destroy Kind.actor_registry)).toList
        ++ (r.s_group_manager.map (Event.destroy Kind.group_manager)).toList
        ++ (match r.s_empty_tuple with
          | some p =>
            if 0 < r.rc - 1 then [Event.deref p]
            else [Event.deref p, Event.destroy Kind.empty_tuple p]
          | none => [])
        ++ (r.s_uniform_type_info_map.map (Event.destroy Kind.uniform_type_info_map)).toList
        ++ (r.s_decorated_names_map.map (Event.destroy Kind.decorated_names_map)).toList := by
  rw [shutdown_eq]

/-! ## Installing the scheduler -/

theorem set_scheduler_claimed (sp_sched sp_nm : Bool) (ptr q : Nat) (r : Registry)
    (h : r.s_scheduler = some q) :
    set_scheduler sp_sched sp_nm ptr r = (false, r.emit (Event.destroy Kind.scheduler ptr)) := by
  cases sp_sched <;>
    simp [set_scheduler, compare_exchange_weak, compare_exchange_strong, Registry.load, h,
      Registry.delete]

theorem set_scheduler_spurious (sp_nm : Bool) (ptr : Nat) (r : Registry) :
    set_scheduler true sp_nm ptr r = (false, r.emit (Event.destroy Kind.scheduler ptr)) := by
  simp [set_scheduler, compare_exchange_weak, Registry.delete]

theorem set_scheduler_installs (ptr : Nat) (r : Registry)
    (h : r.s_scheduler = none) :
    set_scheduler false false ptr r =
      (true, match r.s_network_manager with
        | none =>
          { r with s_scheduler := some ptr, s_network_manager := some r.next,
                   next := r.next + 1,
                   trace := r.trace ++ [Event.start Kind.scheduler ptr,
                     Event.construct Kind.network_manager r.next,
                     Event.start Kind.network_manager r.next] }
        | some _ =>
          { r with s_scheduler := some ptr, next := r.next + 1,
                   trace := r.trace ++ [Event.start Kind.scheduler ptr,
                     Event.construct Kind.network_manager r.next,
                     Event.destroy Kind.network_manager r.next] }) := by
  cases hn : r.s_network_manager <;>
    simp [set_scheduler, compare_exchange_weak, compare_exchange_strong, Registry.load, h, hn,
      Registry.delete, Registry.emit, Registry.store, create_singleton, Registry.new_object]

theorem set_scheduler_half_installs (ptr : Nat) (r : Registry)
    (h : r.s_scheduler = none) :
    set_scheduler false true ptr r =
      (true, { r with s_scheduler := some ptr, next := r.next + 1,
                      trace := r.trace ++ [Event.start Kind.scheduler ptr,
                        Event.construct Kind.network_manager r.next,
                        Event.destroy Kind.network_manager r.next] }) := by
  simp [set_scheduler, compare_exchange_weak, compare_exchange_strong, Registry.load, h,
    Registry.delete, Registry.emit, Registry.store, create_singleton, Registry.new_object]

theorem scheduler_starts_append (t u : List Event) :
    scheduler_starts (t ++ u) = scheduler_starts t + scheduler_starts u := by
  simp [scheduler_starts, List.countP_append]

/-- The number of scheduler starts grows by one exactly when `set_scheduler` returns
`true`. -/
theorem set_scheduler_starts (sp_sched sp_nm : Bool) (ptr : Nat) (r : Registry) :
    scheduler_starts (set_scheduler sp_sched sp_nm ptr r).2.trace =
      scheduler_starts r.trace + (if (set_scheduler sp_sched sp_nm ptr r).1 then 1 else 0) ∧
    ((set_scheduler sp_sched sp_nm ptr r).1 = true → r.s_scheduler = none) ∧
    (r.s_scheduler ≠ none → (set_scheduler sp_sched sp_nm ptr r).2.s_scheduler = r.s_scheduler) ∧
    ((set_scheduler sp_sched sp_nm ptr r).1 = true →
      (set_scheduler sp_sched sp_nm ptr r).2.s_scheduler = some ptr) := by
  cases sp_sched with
  | true =>
    rw [set_scheduler_spurious]
    simp [Registry.emit, scheduler_starts_append, scheduler_starts]
  | false =>
    cases hs : r.s_scheduler with
    | some q =>
      rw [set_scheduler_claimed false sp_nm ptr q r hs]
      simp [Registry.emit, scheduler_starts_append, scheduler_starts, hs]
    | none =>
      cases sp_nm with
      | true =>
        rw [set_scheduler_half_installs ptr r hs]
        simp [scheduler_starts_append, scheduler_starts]
      | false =>
        rw [set_scheduler_installs ptr r hs]
        cases hn : r.s_network_manager <;>
          simp [scheduler_starts_append, scheduler_starts]

/-! ## At most one successful install -/

theorem starts_invariant_of_frame (r r1 : Registry) (hs : r1.s_scheduler = r.s_scheduler)
    (ht : scheduler_starts r1.trace = scheduler_starts r.trace) (h : starts_invariant r) :
    starts_invariant r1 := by
  unfold starts_invariant at *
  rw [hs, ht]
  exact h

theorem starts_invariant_set_scheduler (sp_sched sp_nm : Bool) (ptr : Nat) (r : Registry)
    (h : starts_invariant r) : starts_invariant (set_scheduler sp_sched sp_nm ptr r).2 := by
  obtain ⟨h1, h2, h3, h4⟩ := set_scheduler_starts sp_sched sp_nm ptr r
  obtain ⟨hle, hz⟩ := h
  unfold starts_invariant
  cases hb : (set_scheduler sp_sched sp_nm ptr r).1 with
  | true =>
    rw [hb] at h1
    have h0 := hz (h2 hb)
    refine ⟨by simp at h1; omega, ?_⟩
    intro hn
    rw [h4 hb] at hn
    cases hn
  | false =>
    rw [hb] at h1
    simp only [Bool.false_eq_true, if_false, Nat.add_zero] at h1
    refine ⟨by omega, ?_⟩
    intro hn
    rw [h1]
    apply hz
    by_contra hc
    rw [h3 hc] at hn
    exact hc hn

theorem lazy_get_frame (k : Kind) (hk : k ≠ Kind.scheduler) (fuel : Nat) (r : Registry) :
    (lazy_get k fuel r).2.s_scheduler = r.s_scheduler ∧
    scheduler_starts (lazy_get k fuel r).2.trace = scheduler_starts r.trace := by
  cases fuel with
  | zero => exact ⟨rfl, rfl⟩
  | succ n =>
    rw [lazy_get_eq]
    cases hl : r.load k with
    | some p => exact ⟨rfl, rfl⟩
    | none =>
      cases k <;>
        first
        | exact absurd rfl hk
        | simp [Registry.new_object, Registry.store, scheduler_starts_append, scheduler_starts]

theorem get_empty_tuple_frame (spurious : Bool) (r : Registry) :
    (get_empty_tuple spurious r).2.s_scheduler = r.s_scheduler ∧
    scheduler_starts (get_empty_tuple spurious r).2.trace = scheduler_starts r.trace := by
  cases he : r.s_empty_tuple <;> cases spurious <;>
    simp [get_empty_tuple, Registry.load, he, compare_exchange_weak, compare_exchange_strong,
      Registry.new_object, Registry.store, Registry.delete, Registry.emit,
      scheduler_starts_append, scheduler_starts]

theorem starts_invariant_get_network_manager (fuel : Nat) :
    ∀ (sp : List (Bool × Bool)) (r : Registry), starts_invariant r →
      starts_invariant (get_network_manager fuel sp r).2 := by
  induction fuel with
  | zero => intro sp r h; exact h
  | succ n ih =>
    intro sp r h
    unfold get_network_manager
    cases hn : r.load Kind.network_manager with
    | some p => exact h
    | none =>
      apply ih
      apply starts_invariant_set_scheduler
      refine starts_invariant_of_frame r _ rfl ?_ h
      simp [Registry.new_object, scheduler_starts_append, scheduler_starts]

theorem starts_invariant_apply (o : Op) (ho : o.is_shutdown = false) (r : Registry)
    (h : starts_invariant r) : starts_invariant (Op.apply r o) := by
  cases o with
  | get_actor_registry fuel =>
    obtain ⟨a, b⟩ := lazy_get_frame Kind.actor_registry (by decide) fuel r
    exact starts_invariant_of_frame r _ a b h
  | get_uniform_type_info_map fuel =>
    obtain ⟨a, b⟩ := lazy_get_frame Kind.uniform_type_info_map (by decide) fuel r
    exact starts_invariant_of_frame r _ a b h
  | get_group_manager fuel =>
    obtain ⟨a, b⟩ := lazy_get_frame Kind.group_manager (by decide) fuel r
    exact starts_invariant_of_frame r _ a b h
  | get_decorated_names_map fuel =>
    obtain ⟨a, b⟩ := lazy_get_frame Kind.decorated_names_map (by decide) fuel r
    exact starts_invariant_of_frame r _ a b h
  | get_empty_tuple spurious =>
    obtain ⟨a, b⟩ := get_empty_tuple_frame spurious r
    exact starts_invariant_of_frame r _ a b h
  | get_scheduler => exact h
  | set_scheduler a b ptr => exact starts_invariant_set_scheduler a b ptr r h
  | get_network_manager fuel sp => exact starts_invariant_get_network_manager fuel sp r h
  | shutdown a b c => simp [Op.is_shutdown] at ho

theorem starts_invariant_run (ops : List Op) :
    ∀ r : Registry, (∀ o ∈ ops, o.is_shutdown = false) → starts_invariant r →
      starts_invariant (run r ops) := by
  induction ops with
  | nil => intro r _ h; exact h
  | cons o os ih =>
    intro r ho h
    exact ih _ (fun x hx => ho x (List.mem_cons_of_mem _ hx))
      (starts_invariant_apply o (ho o (List.mem_cons_self _ _)) r h)

/-- Claim C3. In every sequence of calls without `shutdown` that starts from the empty
registry, a scheduler is started at most once; `set_scheduler` starts one
exactly when it returns `true` (also when called from inside
`get_network_manager`) and no lazy getter starts one, so `set_scheduler`
returns `true` at most once.  A call made while the scheduler slot is
claimed returns `false` and its only effect is the destruction of the
supplied instance: no slot and no other part of the state changes and
nothing is started. -/
theorem set_scheduler_succeeds_at_most_once (ops : List Op)
    (hops : ∀ o ∈ ops, o.is_shutdown = false) (r : Registry) (q : Nat)
    (hq : r.s_scheduler = some q) (sp_sched sp_nm : Bool) (ptr : Nat) :
    scheduler_starts (run Registry.empty ops).trace ≤ 1 ∧
    (∀ (a b : Bool) (p : Nat) (r0 : Registry),
      scheduler_starts (set_scheduler a b p r0).2.trace =
        scheduler_starts r0.trace + if (set_scheduler a b p r0).1 then 1 else 0) ∧
    (∀ (k : Kind) (fuel : Nat) (r0 : Registry), k ≠ Kind.scheduler →
      scheduler_starts (lazy_get k fuel r0).2.trace = scheduler_starts r0.trace) ∧
    (∀ (spurious : Bool) (r0 : Registry),
      scheduler_starts (get_empty_tuple spurious r0).2.trace = scheduler_starts r0.trace) ∧
    set_scheduler sp_sched sp_nm ptr r = (false, r.emit (Event.destroy Kind.scheduler ptr)) ∧
    (set_scheduler sp_sched sp_nm ptr r).2 =
      { r with trace := r.trace ++ [Event.destroy Kind.scheduler ptr] } := by
  refine ⟨?_, ?_, ?_, ?_, ?_, ?_⟩
  · have h0 : starts_invariant Registry.empty := by
      simp [starts_invariant, Registry.empty, scheduler_starts]
    exact (starts_invariant_run ops Registry.empty hops h0).1
  · intro a b p r0
    exact (set_scheduler_starts a b p r0).1
  · intro k fuel r0 hk
    exact (lazy_get_frame k hk fuel r0).2
  · intro spurious r0
    exact (get_empty_tuple_frame spurious r0).2
  · exact set_scheduler_claimed sp_sched sp_nm ptr q r hq
  · rw [set_scheduler_claimed sp_sched sp_nm ptr q r hq]
    rfl

/-- Witness for claim C3: a second install after scheduler 7 was installed. -/
theorem set_scheduler_succeeds_at_most_once_witness :
    (∀ o ∈ sample_calls, o.is_shutdown = false) ∧
    sample_installed.s_scheduler = some 7 ∧
    scheduler_starts (run Registry.empty sample_calls).trace ≤ 1 ∧
    (∀ (a b : Bool) (p : Nat) (r0 : Registry),
      scheduler_starts (set_scheduler a b p r0).2.trace =
        scheduler_starts r0.trace + if (set_scheduler a b p r0).1 then 1 else 0) ∧
    (∀ (k : Kind) (fuel : Nat) (r0 : Registry), k ≠ Kind.scheduler →
      scheduler_starts (lazy_get k fuel r0).2.trace = scheduler_starts r0.trace) ∧
    (∀ (spurious : Bool) (r0 : Registry),
      scheduler_starts (get_empty_tuple spurious r0).2.trace = scheduler_starts r0.trace) ∧
    set_scheduler true false 8 sample_installed =
      (false, sample_installed.emit (Event.destroy Kind.scheduler 8)) ∧
    (set_scheduler true false 8 sample_installed).2 =
      { sample_installed with
        trace := sample_installed.trace ++ [Event.destroy Kind.scheduler 8] } :=
  ⟨by decide, rfl,
    set_scheduler_succeeds_at_most_once sample_calls (by decide) sample_installed 7 rfl
      true false 8⟩

/-! ## Weak compare-and-swap without a retry -/

/-- Claim C4, failing input. On the empty registry a spurious failure of the weak
compare-and-swap on `s_scheduler` makes `set_scheduler(7)` return `false`
and destroy scheduler 7 although the slot is empty (and stays empty); a
spurious failure of the second compare-and-swap makes the call return `true`
with the network-manager slot still null, the new manager destroyed. -/
theorem set_scheduler_fails_on_empty_slot :
    Registry.empty.s_scheduler = none ∧
    set_scheduler true false 7 Registry.empty =
      (false, Registry.empty.emit (Event.destroy Kind.scheduler 7)) ∧
    (set_scheduler true false 7 Registry.empty).2.s_scheduler = none ∧
    (set_scheduler false true 7 Registry.empty).1 = true ∧
    (set_scheduler false true 7 Registry.empty).2.s_scheduler = some 7 ∧
    (set_scheduler false true 7 Registry.empty).2.s_network_manager = none ∧
    (set_scheduler false true 7 Registry.empty).2.trace =
      [Event.start Kind.scheduler 7, Event.construct Kind.network_manager 0,
       Event.destroy Kind.network_manager 0] := by
  refine ⟨rfl, ?_, ?_, ?_, ?_, ?_, ?_⟩ <;> decide

/-- Claim C5, failing input. On the empty registry a spurious failure of the weak
compare-and-swap makes `get_empty_tuple()` return `nullptr`: the candidate is
constructed and destroyed, nothing is published, and the next call returns
a different handle. -/
theorem get_empty_tuple_returns_null :
    (get_empty_tuple true Registry.empty).1 = none ∧
    (get_empty_tuple true Registry.empty).2.s_empty_tuple = none ∧
    (get_empty_tuple true Registry.empty).2.trace =
      [Event.construct Kind.empty_tuple 0, Event.destroy Kind.empty_tuple 0] ∧
    (get_empty_tuple false (get_empty_tuple true Registry.empty).2).1 = some 1 ∧
    (get_empty_tuple false (get_empty_tuple true Registry.empty).2).2.s_empty_tuple = some 1 := by
  refine ⟨?_, ?_, ?_, ?_, ?_⟩ <;> decide

/-- Claim C6, failing input. After the empty tuple was created and `shutdown()` has run,
all slots are null; a `get_empty_tuple()` whose weak compare-and-swap fails
spuriously then returns `nullptr` and publishes nothing: its candidate is
constructed and destroyed. -/
theorem get_empty_tuple_after_shutdown_returns_null :
    sample_after_shutdown.s_empty_tuple = none ∧
    sample_after_shutdown.trace =
      [Event.construct Kind.empty_tuple 0, Event.ref 0, Event.fence, Event.deref 0,
       Event.destroy Kind.empty_tuple 0] ∧
    (get_empty_tuple true sample_after_shutdown).1 = none ∧
    (get_empty_tuple true sample_after_shutdown).2.s_empty_tuple = none ∧
    (get_empty_tuple true sample_after_shutdown).2.trace =
      sample_after_shutdown.trace ++
        [Event.construct Kind.empty_tuple 1, Event.destroy Kind.empty_tuple 1] := by
  refine ⟨?_, ?_, ?_, ?_, ?_⟩ <;> decide

theorem get_network_manager_stuck (fuel : Nat) :
    ∀ (sp : List (Bool × Bool)) (r : Registry),
      r.s_network_manager = none → r.s_scheduler ≠ none →
      (get_network_manager fuel sp r).1 = none := by
  induction fuel with
  | zero => intro sp r _ _; rfl
  | succ n ih =>
    intro sp r hn hs
    unfold get_network_manager
    simp only [Registry.load, hn]
    obtain ⟨q, hq⟩ := Option.ne_none_iff_exists'.mp hs
    have hq1 : (r.new_object Kind.scheduler).2.s_scheduler = some q := hq
    rw [set_scheduler_claimed _ _ _ q _ hq1]
    apply ih
    · exact hn
    · simp [Registry.emit, Registry.new_object, hq]

/-- Claim C8, failing input. The state reached from the empty registry by one
`set_scheduler(7)` whose second compare-and-swap fails spuriously has a
scheduler but no network manager; from it `get_network_manager()` never
returns, whatever the recursion bound and whatever the later
compare-and-swap outcomes.  And from the empty registry, a spurious failure
of the first compare-and-swap makes the call need two nested calls. -/
theorem get_network_manager_never_returns :
    sample_half_installed.s_scheduler = some 7 ∧
    sample_half_installed.s_network_manager = none ∧
    (∀ (fuel : Nat) (sp : List (Bool × Bool)),
      (get_network_manager fuel sp sample_half_installed).1 = none) ∧
    (get_network_manager 2 [(true, false)] Registry.empty).1 = none ∧
    (get_network_manager 3 [(true, false)] Registry.empty).1 = some 2 := by
  refine ⟨by decide, by decide, ?_, by decide, by decide⟩
  intro fuel sp
  exact get_network_manager_stuck fuel sp sample_half_installed (by decide) (by decide)

/-! ## What holds when no compare-and-swap fails spuriously -/

/-- A lazy getter built on `lazy_get` returns the content of its slot, constructs an
instance only when the slot is empty, and a repeated call returns the same
handle without any effect. -/
theorem lazy_get_publishes_once (k : Kind) (fuel fuel1 : Nat) (r : Registry) :
    (lazy_get k (fuel + 1) r).1 = (lazy_get k (fuel + 1) r).2.load k ∧
    (lazy_get k (fuel + 1) r).1 ≠ none ∧
    lazy_get k (fuel1 + 1) (lazy_get k (fuel + 1) r).2 = lazy_get k (fuel + 1) r ∧
    (∀ p, r.load k = some p → lazy_get k (fuel + 1) r = (some p, r)) ∧
    (r.load k = none →
      (lazy_get k (fuel + 1) r).1 = some r.next ∧
      (lazy_get k (fuel + 1) r).2.trace = r.trace ++ [Event.construct k r.next]) := by
  rw [lazy_get_eq]
  cases h : r.load k with
  | some p =>
    refine ⟨by simp [h], by simp, ?_, by simp, by simp⟩
    rw [lazy_get_eq, h]
  | none =>
    have hl : ((r.new_object k).2.store k (some r.next)).load k = some r.next :=
      Registry.load_store_same _ _ _
    refine ⟨by simp [hl], by simp, ?_, by simp, ?_⟩
    · rw [lazy_get_eq]
      simp only [hl]
    · intro _
      refine ⟨rfl, ?_⟩
      cases k <;> rfl

/-- Without a spurious failure `get_empty_tuple()` behaves like the other lazy getters,
and the winner takes one reference on the new instance. -/
theorem get_empty_tuple_publishes_once (r : Registry) :
    (get_empty_tuple false r).1 = (get_empty_tuple false r).2.s_empty_tuple ∧
    (get_empty_tuple false r).1 ≠ none ∧
    (∀ b, get_empty_tuple b (get_empty_tuple false r).2 = get_empty_tuple false r) ∧
    (∀ p, r.s_empty_tuple = some p → get_empty_tuple false r = (some p, r)) ∧
    (r.s_empty_tuple = none →
      (get_empty_tuple false r).1 = some r.next ∧
      (get_empty_tuple false r).2.rc = 1 ∧
      (get_empty_tuple false r).2.trace =
        r.trace ++ [Event.construct Kind.empty_tuple r.next, Event.ref r.next]) := by
  cases h : r.s_empty_tuple with
  | some p =>
    refine ⟨?_, ?_, ?_, ?_, ?_⟩ <;>
      simp [get_empty_tuple, Registry.load, h]
  | none =>
    refine ⟨?_, ?_, ?_, ?_, ?_⟩ <;>
      simp [get_empty_tuple, Registry.load, h, compare_exchange_weak, compare_exchange_strong,
        Registry.new_object, Registry.store, Registry.emit, ref]

/-- After `shutdown()` every slot is null; a second `shutdown()` only repeats the quit
request and the fence, it stops and destroys nothing; and a lazy getter
called afterwards constructs and publishes a fresh instance. -/
theorem shutdown_clears_every_slot (self_ self1 : Option Nat)
    (sp_nm sp_sched sp_nm1 sp_sched1 : List Bool) (r : Registry) (k : Kind) (fuel : Nat) :
    (shutdown self_ sp_nm sp_sched r).load k = none ∧
    (shutdown self_ sp_nm sp_sched r).next = r.next ∧
    (shutdown self1 sp_nm1 sp_sched1 (shutdown self_ sp_nm sp_sched r)).trace =
      (shutdown self_ sp_nm sp_sched r).trace ++ (self1.map Event.quit).toList
        ++ [Event.fence] ∧
    (∀ k1, (shutdown self1 sp_nm1 sp_sched1 (shutdown self_ sp_nm sp_sched r)).load k1 = none) ∧
    (lazy_get k (fuel + 1) (shutdown self_ sp_nm sp_sched r)).1 = some r.next ∧
    (lazy_get k (fuel + 1) (shutdown self_ sp_nm sp_sched r)).2.load k = some r.next ∧
    (lazy_get k (fuel + 1) (shutdown self_ sp_nm sp_sched r)).2.trace =
      (shutdown self_ sp_nm sp_sched r).trace ++ [Event.construct k r.next] := by
  have hload : ∀ (a : Option Nat) (b c : List Bool) (r0 : Registry) (k0 : Kind),
      (shutdown a b c r0).load k0 = none := by
    intro a b c r0 k0
    rw [shutdown_eq]
    cases k0 <;> rfl
  have hnext : (shutdown self_ sp_nm sp_sched r).next = r.next := by
    rw [shutdown_eq]
  have hlazy := lazy_get_publishes_once k fuel fuel (shutdown self_ sp_nm sp_sched r)
  obtain ⟨h1, _, _, _, h5⟩ := hlazy
  obtain ⟨h6, h7⟩ := h5 (hload _ _ _ _ _)
  refine ⟨hload _ _ _ _ _, hnext, ?_, fun k1 => hload _ _ _ _ _, ?_, ?_, ?_⟩
  · rw [shutdown_eq self1 sp_nm1 sp_sched1 (shutdown self_ sp_nm sp_sched r)]
    have hs : ∀ k0, (shutdown self_ sp_nm sp_sched r).load k0 = none := fun k0 => hload _ _ _ _ _
    have a1 := hs Kind.actor_registry
    have a2 := hs Kind.network_manager
    have a3 := hs Kind.scheduler
    have a4 := hs Kind.group_manager
    have a5 := hs Kind.empty_tuple
    have a6 := hs Kind.uniform_type_info_map
    have a7 := hs Kind.decorated_names_map
    simp only [Registry.load] at a1 a2 a3 a4 a5 a6 a7
    simp [a1, a2, a3, a4, a5, a6, a7]
  · rw [h6, hnext]
  · rw [← h1, h6, hnext]
  · rw [h7, hnext]

/-- From a state without scheduler and network manager, and with no spurious failure,
`get_network_manager()` returns after one nested call, having installed and
started a default scheduler and a network manager. -/
theorem get_network_manager_bootstraps (fuel : Nat) (r : Registry)
    (hn : r.s_network_manager = none) (hs : r.s_scheduler = none) :
    get_network_manager (fuel + 2) [] r =
      (some (r.next + 1),
        { r with s_scheduler := some r.next, s_network_manager := some (r.next + 1),
                 next := r.next + 2,
                 trace := r.trace ++ [Event.construct Kind.scheduler r.next,
                   Event.start Kind.scheduler r.next,
                   Event.construct Kind.network_manager (r.next + 1),
                   Event.start Kind.network_manager (r.next + 1)] }) := by
  unfold get_network_manager
  simp only [Registry.load, hn]
  have h1 : (r.new_object Kind.scheduler).2.s_scheduler = none := hs
  have h2 : (r.new_object Kind.scheduler).2.s_network_manager = none := hn
  simp only [List.headD_nil, List.tail_nil]
  rw [set_scheduler_installs _ _ h1, h2]
  unfold get_network_manager
  simp [Registry.load, Registry.new_object]

end cppa
